import Mathlib

/-!
Shallow embedding of the asynchronous serving front-end in
src/aphrodite/engine/async_aphrodite.py: the AsyncStream output channel,
the RequestTracker, the supervisor (AsyncAphrodite) lifecycle state, and
the per-virtual-engine step logic (_AsyncAphrodite.step_async and its
helpers).  Python exceptions are modelled with the Exc inductive and
fallible code returns Except; the asyncio queues are FIFO lists; the
dict of request streams is an association list with dict semantics
(insert replaces in place, pop removes the binding).  All code is
translated from the source file; external collaborators (the batched
engine, the executor, the scheduler) appear as explicit oracle
parameters exactly at the call sites where the source invokes them.
-/

namespace Aphrodite

/-- Python exceptions that the source raises, catches or routes into
streams.  STOP_ITERATION is the module-level sentinel object used by
AsyncStream.finish for a clean end of stream. -/
inductive Exc where
  | stopIteration : Exc
  | cancelledError : Exc
  | valueError (msg : String) : Exc
  | timeoutError : Exc
  | engineDead (msg : String) : Exc
  | runtimeError (msg : String) : Exc
  | assertionError (msg : String) : Exc
  | keyError (msg : String) : Exc
deriving Repr, DecidableEq

instance {ε α : Type} [DecidableEq ε] [DecidableEq α] :
    DecidableEq (Except ε α) := fun x y =>
  match x, y with
  | .ok a, .ok b =>
      if h : a = b then isTrue (by rw [h])
      else isFalse (by intro hh; cases hh; exact h rfl)
  | .ok _, .error _ => isFalse (by intro hh; cases hh)
  | .error _, .ok _ => isFalse (by intro hh; cases hh)
  | .error e, .error f =>
      if h : e = f then isTrue (by rw [h])
      else isFalse (by intro hh; cases hh; exact h rfl)

/-- An incremental per-request output produced by the engine
(RequestOutput / EmbeddingRequestOutput collapsed to the fields the
front-end reads: request_id and the finished flag; the generated
content is opaque). -/
structure RequestOutput where
  request_id : String
  token : Nat
  finished : Bool
deriving Repr, DecidableEq

/-- An item sitting in an AsyncStream queue: either an output or a
raisable terminator (the code stores exceptions and outputs in the same
asyncio.Queue and the consumer distinguishes them with _is_raisable). -/
inductive StreamItem where
  | out (o : RequestOutput) : StreamItem
  | exc (e : Exc) : StreamItem
deriving Repr, DecidableEq

/-- AsyncStream (lines 75-122): one request's ordered output channel.
The _cancel callback closure is not part of the state (no claim here
involves consumer-side drop); queue is the asyncio.Queue contents in
FIFO order (head = oldest). -/
structure AsyncStream where
  request_id : String
  queue : List StreamItem
  finished : Bool
deriving Repr, DecidableEq

/-- A fresh stream as built by AsyncStream.__init__. -/
def AsyncStream.init (rid : String) : AsyncStream :=
  { request_id := rid, queue := [], finished := false }

/-- AsyncStream.put (lines 85-88): enqueue unless finished. -/
def AsyncStream.put (s : AsyncStream) (item : StreamItem) : AsyncStream :=
  if s.finished then s else { s with queue := s.queue ++ [item] }

/-- AsyncStream.finish (lines 90-97): idempotent; enqueues the exception
when one is given (the code also accepts exception classes; a non
raisable argument, i.e. None, becomes the STOP_ITERATION sentinel) and
latches the finished flag. -/
def AsyncStream.finish (s : AsyncStream) (e : Option Exc) : AsyncStream :=
  if s.finished then s
  else { s with queue := s.queue ++ [.exc (e.getD .stopIteration)],
                finished := true }

/-- The consumer view of a queue, following AsyncStream.generator
(lines 103-116): outputs are yielded in order until the first raisable
item, which terminates the stream (STOP_ITERATION = clean return, any
other exception is raised); items after the terminator are never
observed. -/
def consumeQueue : List StreamItem → List RequestOutput × Option Exc
  | [] => ([], none)
  | .out o :: rest =>
      let r := consumeQueue rest
      (o :: r.1, r.2)
  | .exc e :: _ => ([], some e)

/-- A producer-side action on a stream: the engine front-end only ever
calls put with outputs and finish with an optional exception. -/
inductive StreamOp where
  | put (o : RequestOutput) : StreamOp
  | finish (e : Option Exc) : StreamOp
deriving Repr, DecidableEq

def applyOp (s : AsyncStream) : StreamOp → AsyncStream
  | .put o => s.put (.out o)
  | .finish e => s.finish e

def applyOps (s : AsyncStream) (ops : List StreamOp) : AsyncStream :=
  ops.foldl applyOp s

/-- The outputs put strictly before the first finish call. -/
def outputsBeforeFinish : List StreamOp → List RequestOutput
  | [] => []
  | .put o :: rest => o :: outputsBeforeFinish rest
  | .finish _ :: _ => []

/-- The terminator carried by the first finish call, if any (None
becomes the clean STOP_ITERATION sentinel). -/
def firstTerminator : List StreamOp → Option Exc
  | [] => none
  | .put _ :: rest => firstTerminator rest
  | .finish e :: _ => some (e.getD .stopIteration)

/-- The engine-side payload of one submission: the kwargs dict that
RequestTracker.add_request forwards to engine add_request (request_id,
inputs, params, arrival_time collapsed into an opaque payload, plus the
optional LoRA adapter handle which add_request_async inspects). -/
structure NewRequest where
  request_id : String
  lora_request : Option Nat
  payload : Nat
deriving Repr, DecidableEq

/-- Lookup in the request_streams dict (first binding wins, as in a
Python dict whose keys are unique). -/
def lookupA : List (String × AsyncStream) → String → Option AsyncStream
  | [], _ => none
  | (k, v) :: rest, rid => if k = rid then some v else lookupA rest rid

/-- dict.__setitem__: replace the existing binding in place, else
append a new one. -/
def insertA : List (String × AsyncStream) → String → AsyncStream →
    List (String × AsyncStream)
  | [], rid, v => [(rid, v)]
  | (k, w) :: rest, rid, v =>
      if k = rid then (rid, v) :: rest else (k, w) :: insertA rest rid v

/-- dict.pop(rid, None): drop the binding for rid. -/
def eraseA (m : List (String × AsyncStream)) (rid : String) :
    List (String × AsyncStream) :=
  m.filter (fun p => p.1 ≠ rid)

/-- RequestTracker state (lines 125-133): the streams dict, the two
pending FIFO queues and the level-triggered new-requests event. -/
structure RequestTracker where
  request_streams : List (String × AsyncStream)
  aborted_requests : List String
  new_requests : List (AsyncStream × NewRequest)
  new_requests_event : Bool
deriving Repr, DecidableEq

/-- RequestTracker.__init__. -/
def RequestTracker.mkInit : RequestTracker :=
  { request_streams := [], aborted_requests := [], new_requests := [],
    new_requests_event := false }

/-- RequestTracker.add_request (lines 187-209): duplicate ids (already
in the streams dict) raise KeyError; otherwise a fresh stream is
created, the pair is queued into new_requests and the event is set.
The stream is NOT registered into request_streams yet. -/
def RequestTracker.add_request (tr : RequestTracker) (req : NewRequest) :
    Except Exc (RequestTracker × AsyncStream) :=
  if (lookupA tr.request_streams req.request_id).isSome then
    .error (.keyError "Request already exists.")
  else
    let stream := AsyncStream.init req.request_id
    .ok ({ tr with new_requests := tr.new_requests ++ [(stream, req)],
                   new_requests_event := true }, stream)

/-- RequestTracker.abort_request (lines 211-225): always enqueue the id
into the aborted queue, then pop the stream from the dict and finish it
with the given exception (None gives the clean sentinel).  The finished
stream object is returned so that the consumer-visible mutation stays
observable in the pure model. -/
def RequestTracker.abort_request (tr : RequestTracker) (rid : String)
    (e : Option Exc) : RequestTracker × Option AsyncStream :=
  let tr1 := { tr with aborted_requests := tr.aborted_requests ++ [rid] }
  match lookupA tr1.request_streams rid with
  | none => (tr1, none)
  | some s =>
      ({ tr1 with request_streams := eraseA tr1.request_streams rid },
       some (s.finish e))

/-- RequestTracker.process_exception (lines 177-185) delegates to
abort_request with the exception. -/
def RequestTracker.process_exception (tr : RequestTracker) (rid : String)
    (e : Exc) : RequestTracker × Option AsyncStream :=
  tr.abort_request rid (some e)

/-- Python set insertion (set.add): ignore an element already present. -/
def setInsert (s : List String) (x : String) : List String :=
  if x ∈ s then s else s ++ [x]

/-- Draining the aborted FIFO into the finished_requests set
(lines 233-235). -/
def abortedSet (q : List String) : List String :=
  q.foldl setInsert []

/-- set.discard. -/
def setDiscard (s : List String) (x : String) : List String :=
  s.filter (fun y => y ≠ x)

/-- Result of draining the new-requests FIFO (the loop of lines
237-246): the specs to hand to the engine, the surviving aborted set,
the streams finished with a cancellation because their id was in the
aborted set, and the updated streams dict. -/
structure DrainNewRes where
  new_requests : List NewRequest
  finished_requests : List String
  cancelled_streams : List AsyncStream
  request_streams : List (String × AsyncStream)
deriving Repr, DecidableEq

/-- The new-requests drain loop (lines 237-246): an id in the aborted
set wins: its stream is finished with asyncio.CancelledError, the id is
discarded from the set and the spec is dropped; otherwise the stream is
registered into the streams dict and the spec is kept. -/
def drainNew (streams : List (String × AsyncStream))
    (finished : List String) :
    List (AsyncStream × NewRequest) → DrainNewRes
  | [] => { new_requests := [], finished_requests := finished,
            cancelled_streams := [], request_streams := streams }
  | (stream, req) :: rest =>
      if stream.request_id ∈ finished then
        let d := drainNew streams (setDiscard finished stream.request_id) rest
        { d with cancelled_streams :=
            stream.finish (some .cancelledError) :: d.cancelled_streams }
      else
        let d := drainNew (insertA streams stream.request_id stream)
                   finished rest
        { d with new_requests := req :: d.new_requests }

/-- Result of RequestTracker.get_new_and_aborted_requests. -/
structure DrainResult where
  new_requests : List NewRequest
  finished_requests : List String
  cancelled_streams : List AsyncStream
  tracker : RequestTracker
deriving Repr, DecidableEq

/-- RequestTracker.get_new_and_aborted_requests (lines 227-248): empty
both pending queues, let aborts win over matching new ids, register the
surviving new streams, and return the specs together with the aborted
ids that survived the matching. -/
def RequestTracker.get_new_and_aborted_requests (tr : RequestTracker) :
    DrainResult :=
  let d := drainNew tr.request_streams (abortedSet tr.aborted_requests)
             tr.new_requests
  { new_requests := d.new_requests,
    finished_requests := d.finished_requests,
    cancelled_streams := d.cancelled_streams,
    tracker := { tr with request_streams := d.request_streams,
                         aborted_requests := [], new_requests := [] } }

/-- The inner fold of RequestTracker.propagate_exception (lines
141-152): abort every id in the captured key tuple, collecting the
finished streams. -/
def propagateGo (e : Exc) : RequestTracker → List String →
    RequestTracker × List (String × AsyncStream)
  | tr, [] => (tr, [])
  | tr, rid :: rest =>
      let p := tr.abort_request rid (some e)
      let q := propagateGo e p.1 rest
      (q.1, (match p.2 with
             | some s => [(rid, s)]
             | none => []) ++ q.2)

/-- RequestTracker.propagate_exception with request_id=None: abort
every live stream with the exception (the key tuple is captured before
the first abort pops a stream). -/
def RequestTracker.propagate_exception (tr : RequestTracker) (e : Exc) :
    RequestTracker × List (String × AsyncStream) :=
  propagateGo e tr (tr.request_streams.map (fun p => p.1))

/-- C1 witness tracker: one submission of r1 immediately aborted before
the drain. -/
def trackerC1 : RequestTracker :=
  { request_streams := [],
    aborted_requests := ["r1"],
    new_requests := [(AsyncStream.init "r1",
      { request_id := "r1", lora_request := none, payload := 0 })],
    new_requests_event := true }

/-- The engine handle as the front-end consumes it while handing over
new requests: the LoRA configuration flag read by add_request_async
(self.lora_config, None when adapters are disabled) and an oracle for
the remainder of the engine-side validation and registration
(tokenization, prompt processing, _add_processed_request), which may
itself raise. -/
structure Engine where
  lora_config : Bool
  validate : NewRequest → Except Exc Unit

/-- _AsyncAphrodite.add_request_async (lines 549-579): a LoRA request
while LoRA is not enabled raises ValueError before any processing; the
rest of the processing is the engine-side oracle. -/
def Engine.add_request_async (eng : Engine) (req : NewRequest) :
    Except Exc Unit :=
  if req.lora_request.isSome ∧ eng.lora_config = false then
    .error (.valueError "Got lora_request but LoRA is not enabled!")
  else
    eng.validate req

/-- The per-spec handoff loop of AsyncAphrodite.engine_step (lines
819-834): each drained spec goes to engine add_request_async; a
ValueError is caught and routed to that spec's stream via
process_exception, any other exception escapes engine_step.  The
finished streams are collected so the consumer-visible mutations stay
observable. -/
def processNewRequests (eng : Engine) :
    RequestTracker → List NewRequest →
    Except Exc (RequestTracker × List (String × AsyncStream))
  | tr, [] => .ok (tr, [])
  | tr, req :: rest =>
      match eng.add_request_async req with
      | .ok _ => processNewRequests eng tr rest
      | .error (.valueError m) =>
          let p := tr.process_exception req.request_id (.valueError m)
          match processNewRequests eng p.1 rest with
          | .ok (tr2, logs) =>
              .ok (tr2, (match p.2 with
                         | some s => [(req.request_id, s)]
                         | none => []) ++ logs)
          | .error e => .error e
      | .error e => .error e

/-- The synchronous head of AsyncAphrodite.engine_step (lines 811-837):
drain the tracker, hand the surviving specs to the engine one by one
(ValueError routed per spec), and return the aborted ids that will be
forwarded to engine abort_request. -/
def engine_step_adds (eng : Engine) (tr : RequestTracker) :
    Except Exc (RequestTracker × List NewRequest × List String
      × List AsyncStream × List (String × AsyncStream)) :=
  let d := tr.get_new_and_aborted_requests
  match processNewRequests eng d.tracker d.new_requests with
  | .ok (tr2, logs) =>
      .ok (tr2, d.new_requests, d.finished_requests,
           d.cancelled_streams, logs)
  | .error e => .error e

/-- C4 witness engine: validation rejects exactly the spec with
payload 0. -/
def engineC4 : Engine :=
  { lora_config := true,
    validate := fun r =>
      if r.payload = 0 then .error (.valueError "bad") else .ok () }

def reqBadC4 : NewRequest :=
  { request_id := "s", lora_request := none, payload := 0 }

def reqGoodC4 : NewRequest :=
  { request_id := "g", lora_request := none, payload := 1 }

/-- C4 witness tracker: both specs were just registered by the drain. -/
def trackerC4 : RequestTracker :=
  { request_streams := [("g", AsyncStream.init "g"),
                        ("s", AsyncStream.init "s")],
    aborted_requests := [], new_requests := [], new_requests_event := false }

/-- The supervisor-visible state of AsyncAphrodite (lines 587-637):
the auto-start flag, the latched error, the shielded background_loop
future (present or not), the unshielded task handle (present together
with its done flag) and the request tracker.  The engine handle is
passed explicitly to the functions that consume it. -/
structure AsyncAphrodite where
  start_engine_loop : Bool
  errored_with : Option Exc
  background_loop : Bool
  bg_task : Option Bool
  request_tracker : RequestTracker
deriving Repr, DecidableEq

/-- AsyncAphrodite.is_running (lines 728-732): both handles present and
the task not done. -/
def AsyncAphrodite.is_running (st : AsyncAphrodite) : Bool :=
  st.background_loop && (match st.bg_task with
                         | some d => !d
                         | none => false)

/-- AsyncAphrodite.errored (lines 740-742). -/
def AsyncAphrodite.errored (st : AsyncAphrodite) : Bool :=
  st.errored_with.isSome

/-- AsyncAphrodite.is_stopped (lines 734-738). -/
def AsyncAphrodite.is_stopped (st : AsyncAphrodite) : Bool :=
  st.errored || (st.background_loop && (match st.bg_task with
                                        | some d => d
                                        | none => false))

/-- AsyncAphrodite.set_errored (lines 744-745). -/
def AsyncAphrodite.set_errored (st : AsyncAphrodite) (e : Exc) :
    AsyncAphrodite :=
  { st with errored_with := some e }

/-- AsyncAphrodite.shutdown_background_loop (lines 778-789): cancel and
drop the unshielded task, clear the shielded future.  The latched error
is untouched. -/
def AsyncAphrodite.shutdown_background_loop (st : AsyncAphrodite) :
    AsyncAphrodite :=
  { st with bg_task := none, background_loop := false }

/-- AsyncAphrodite.start_background_loop (lines 762-776): refuse when
errored (AsyncEngineDeadError) or already running (RuntimeError); else
build a FRESH RequestTracker and spawn the loop task. -/
def AsyncAphrodite.start_background_loop (st : AsyncAphrodite) :
    Except Exc AsyncAphrodite :=
  if st.errored then
    .error (.engineDead "Background loop has errored already.")
  else if st.is_running then
    .error (.runtimeError "Background loop is already running.")
  else
    .ok { st with request_tracker := RequestTracker.mkInit,
                  bg_task := some false, background_loop := true }

/-- AsyncAphrodite.add_request (lines 928-957): lazy-start the loop if
allowed, else fail with AsyncEngineDeadError; then queue into the
tracker and hand the stream back to the caller.  No engine state is
consulted here. -/
def AsyncAphrodite.add_request (st : AsyncAphrodite) (req : NewRequest) :
    Except Exc (AsyncAphrodite × AsyncStream) :=
  match (if st.is_running then .ok st
         else if st.start_engine_loop then st.start_background_loop
         else .error (.engineDead
           "Background loop is not running.")) with
  | .error e => .error e
  | .ok st1 =>
      match st1.request_tracker.add_request req with
      | .error e => .error e
      | .ok (tr1, stream) =>
          .ok ({ st1 with request_tracker := tr1 }, stream)

/-- C7 counterexample supervisor: running, auto-start enabled, no
latched error. -/
def supervisorC7 : AsyncAphrodite :=
  { start_engine_loop := true, errored_with := none,
    background_loop := true, bg_task := some false,
    request_tracker := RequestTracker.mkInit }

/-- C7 witness supervisor: never started, auto-start enabled. -/
def supervisorC7b : AsyncAphrodite :=
  { start_engine_loop := true, errored_with := none,
    background_loop := false, bg_task := none,
    request_tracker := RequestTracker.mkInit }

/-- ENGINE_ITERATION_TIMEOUT_S (lines 37-38): the watchdog bound read
from the environment, defaulting to 60 seconds. -/
def engineIterationTimeoutDefaultS : Nat := 60

/-- The reaction of the system to the iteration watchdog firing: the
run_engine_loop except-branch (lines 919-923) latches the error and
re-raises, which ends the background task; the done callback
_log_task_completion (lines 45-69) catches the escaped exception and
invokes _error_callback (lines 747-749), which latches the error again
and propagates it to every live stream.  The real-time condition (the
awaited wait over the in-flight step tasks exceeding the timeout) is
the event this transition models. -/
def AsyncAphrodite.on_iteration_timeout (st : AsyncAphrodite) :
    AsyncAphrodite × List (String × AsyncStream) :=
  let st1 := st.set_errored .timeoutError
  let st2 := { st1 with bg_task := st1.bg_task.map (fun _ => true) }
  let st3 := st2.set_errored .timeoutError
  let p := st3.request_tracker.propagate_exception .timeoutError
  ({ st3 with request_tracker := p.1 }, p.2)

/-- C5 witness supervisor: running, one live stream r1. -/
def supervisorC5 : AsyncAphrodite :=
  { start_engine_loop := true, errored_with := none,
    background_loop := true, bg_task := some false,
    request_tracker :=
      { request_streams := [("r1", AsyncStream.init "r1")],
        aborted_requests := [], new_requests := [],
        new_requests_event := false } }

/-- C6 counterexample engine: LoRA disabled, everything else accepted. -/
def engineC6 : Engine :=
  { lora_config := false, validate := fun _ => .ok () }

/-- C6 counterexample supervisor: running with an empty tracker. -/
def supervisorC6 : AsyncAphrodite :=
  { start_engine_loop := true, errored_with := none,
    background_loop := true, bg_task := some false,
    request_tracker := RequestTracker.mkInit }

def reqLoraC6 : NewRequest :=
  { request_id := "r1", lora_request := some 7, payload := 0 }

/-- C6 witness supervisor identical to the counterexample one but with
a live unrelated stream, to exercise the general statement. -/
def supervisorC6b : AsyncAphrodite :=
  { start_engine_loop := true, errored_with := none,
    background_loop := true, bg_task := some false,
    request_tracker :=
      { request_streams := [("other", AsyncStream.init "other")],
        aborted_requests := [], new_requests := [],
        new_requests_event := false } }

/-- The per-sequence-group multi-step state: remaining_steps as read by
_has_remaining_steps (SequenceGroupMetadata.state.remaining_steps). -/
structure SeqGroupState where
  remaining_steps : Int
deriving Repr, DecidableEq

structure SequenceGroupMetadata where
  request_id : String
  state : SeqGroupState
deriving Repr, DecidableEq

/-- The scheduler decision as step_async consumes it.  is_empty models
the SchedulerOutputs.is_empty() probe (the class itself lives outside
this file's source). -/
structure SchedulerOutputs where
  is_empty : Bool
  num_lookahead_slots : Nat
  blocks_to_swap_in : List (Nat × Nat)
  blocks_to_swap_out : List (Nat × Nat)
  blocks_to_copy : List (Nat × Nat)
  running_queue_size : Nat
deriving Repr, DecidableEq

/-- The sampler output fields step_async inspects for multi-step
pipeline-parallel token forwarding. -/
structure SamplerOutput where
  sampled_token_ids_cpu : Option (List Int)
  sampled_token_ids : Option (List Int)
  sampled_token_probs : Option (List Int)
deriving Repr, DecidableEq

/-- ExecuteModelRequest (built at lines 319-330). -/
structure ExecuteModelRequest where
  seq_group_metadata_list : List SequenceGroupMetadata
  blocks_to_swap_in : List (Nat × Nat)
  blocks_to_swap_out : List (Nat × Nat)
  blocks_to_copy : List (Nat × Nat)
  virtual_engine : Nat
  num_lookahead_slots : Nat
  running_queue_size : Nat
  finished_requests_ids : List String
  last_sampled_token_ids : Option (List Int)
deriving Repr, DecidableEq

/-- SchedulerOutputState (lines 259-264): the per-virtual-engine
multi-step cache. -/
structure SchedulerOutputState where
  last_output : Option SamplerOutput
  seq_group_metadata_list : Option (List SequenceGroupMetadata)
  scheduler_outputs : Option SchedulerOutputs
deriving Repr, DecidableEq

/-- The dataclass defaults: the empty cache. -/
def SchedulerOutputState.empty : SchedulerOutputState :=
  { last_output := none, seq_group_metadata_list := none,
    scheduler_outputs := none }

/-- The engine-side collaborators of one step_async call on one virtual
engine: the configuration flags, the scheduler result for this call,
the finished-ids fetch, the executor and the output processor, plus the
per-group finish_step transition (SequenceGroupMetadata.finish_step is
engine code outside this file's source; it is an opaque state
transition here because step_async only calls it and re-reads
remaining_steps afterwards). -/
structure StepEnv where
  is_multi_step : Bool
  pipeline_parallel_size : Nat
  virtual_engine : Nat
  schedule : List SequenceGroupMetadata × SchedulerOutputs
  finished_requests_ids : List String
  execute_model : ExecuteModelRequest → List (Option SamplerOutput)
  process_model_outputs :
    List (Option SamplerOutput) → SchedulerOutputs →
    List SequenceGroupMetadata → List RequestOutput
  finish_step : SeqGroupState → SeqGroupState

/-- _AsyncAphrodite._has_remaining_steps (lines 361-377): False when
multi-step is off or the list is falsy (None or empty); otherwise every
group must agree with the first group's remaining_steps (AssertionError
when not), and the result is whether that shared value is positive. -/
def _has_remaining_steps (is_multi_step : Bool) :
    Option (List SequenceGroupMetadata) → Except Exc Bool
  | none => .ok false
  | some [] => .ok false
  | some (g0 :: gs) =>
      if is_multi_step = false then .ok false
      else if gs.any
          (fun g => g.state.remaining_steps ≠ g0.state.remaining_steps) then
        .error (.assertionError
          "All running sequence groups should have the same remaining steps.")
      else
        .ok (decide (0 < g0.state.remaining_steps))

/-- _cache_scheduler_outputs_for_multi_step (lines 379-387). -/
def _cache_scheduler_outputs_for_multi_step
    (l : List SequenceGroupMetadata) (so : SchedulerOutputs) :
    SchedulerOutputState :=
  { seq_group_metadata_list := some l, scheduler_outputs := some so,
    last_output := none }

/-- _get_last_sampled_token_ids (lines 388-397). -/
def _get_last_sampled_token_ids (is_multi_step : Bool) (pp : Nat)
    (cache : SchedulerOutputState) : Option (List Int) :=
  match cache.last_output with
  | some lo =>
      if is_multi_step ∧ 1 < pp ∧ lo.sampled_token_ids_cpu.isSome then
        lo.sampled_token_ids_cpu
      else none
  | none => none

/-- _update_cached_scheduler_output (lines 399-410): under pipeline
parallelism, a non-empty output list with a real first element stores
the LAST element as last_output; the asserts about CPU-resident
sampled tokens become errors. -/
def _update_cached_scheduler_output (pp : Nat)
    (cache : SchedulerOutputState)
    (output : List (Option SamplerOutput)) : Except Exc SchedulerOutputState :=
  if 1 < pp ∧ 0 < output.length ∧ (output.head?.bind id).isSome then
    match output.getLast? with
    | some (some lo) =>
        if lo.sampled_token_ids_cpu.isSome
            ∧ lo.sampled_token_ids = none
            ∧ lo.sampled_token_probs = none then
          .ok { cache with last_output := some lo }
        else .error (.assertionError "last output token ids not cpu resident")
    | _ => .error (.assertionError "last output is None")
  else .ok cache

/-- The schedule-or-reuse phase of step_async (lines 290-308): reuse
the cached pair while steps remain (asserting both halves are cached),
else call the scheduler and, under multi-step with lookahead slots,
cache the fresh pair.  The returned Bool records whether the working
list is (now) the one stored in the cache — the Python objects are
aliased, so later in-place mutations of the groups are visible through
the cache exactly in that case. -/
def stepSchedulePhase (env : StepEnv) (cache : SchedulerOutputState) :
    Except Exc (List SequenceGroupMetadata × SchedulerOutputs
      × SchedulerOutputState × Bool) :=
  match _has_remaining_steps env.is_multi_step
      cache.seq_group_metadata_list with
  | .error e => .error e
  | .ok true =>
      match cache.seq_group_metadata_list, cache.scheduler_outputs with
      | some l, some so => .ok (l, so, cache, true)
      | _, _ => .error (.assertionError "cached scheduler state is None")
  | .ok false =>
      let l := env.schedule.1
      let so := env.schedule.2
      if env.is_multi_step ∧ 0 < so.num_lookahead_slots then
        .ok (l, so, _cache_scheduler_outputs_for_multi_step l so, true)
      else
        .ok (l, so, cache, false)

/-- The execution phase of step_async (lines 310-339): skip execution
when the scheduler output is empty; otherwise build the
ExecuteModelRequest (with the forwarded last sampled token ids and the
fetched finished-request ids) and run the executor, updating the cached
last_output under multi-step. -/
def stepExecutePhase (env : StepEnv) (sgml : List SequenceGroupMetadata)
    (so : SchedulerOutputs) (cache : SchedulerOutputState) :
    Except Exc (List (Option SamplerOutput) × SchedulerOutputState) :=
  if so.is_empty = false then
    let req : ExecuteModelRequest :=
      { seq_group_metadata_list := sgml,
        blocks_to_swap_in := so.blocks_to_swap_in,
        blocks_to_swap_out := so.blocks_to_swap_out,
        blocks_to_copy := so.blocks_to_copy,
        virtual_engine := env.virtual_engine,
        num_lookahead_slots := so.num_lookahead_slots,
        running_queue_size := so.running_queue_size,
        finished_requests_ids := env.finished_requests_ids,
        last_sampled_token_ids :=
          _get_last_sampled_token_ids env.is_multi_step
            env.pipeline_parallel_size cache }
    let output := env.execute_model req
    match (if env.is_multi_step then
             _update_cached_scheduler_output env.pipeline_parallel_size
               cache output
           else .ok cache) with
    | .error e => .error e
    | .ok cache2 => .ok (output, cache2)
  else .ok ([], cache)

/-- The per-group step completion (lines 341-344): under multi-step,
finish_step every group in place. -/
def stepFinishList (env : StepEnv) (sgml : List SequenceGroupMetadata) :
    List SequenceGroupMetadata :=
  if env.is_multi_step then
    sgml.map (fun g => { g with state := env.finish_step g.state })
  else sgml

/-- _AsyncAphrodite.step_async for one virtual engine (lines 278-359),
composed from the three phases; the aliasing flag routes the in-place
finish_step mutation into the cache when the cache holds the working
list.  Output materialization: steps still remaining yields no outputs
and keeps the cache; otherwise the cache is reset (multi-step) and the
outputs are processed. -/
def step_async (env : StepEnv) (cache : SchedulerOutputState) :
    Except Exc (List RequestOutput × SchedulerOutputState) :=
  match stepSchedulePhase env cache with
  | .error e => .error e
  | .ok (sgml, so, cache1, aliased) =>
      match stepExecutePhase env sgml so cache1 with
      | .error e => .error e
      | .ok (output, cache2) =>
          let sgml2 := stepFinishList env sgml
          let cache3 := if aliased then
              { cache2 with seq_group_metadata_list := some sgml2 }
            else cache2
          match _has_remaining_steps env.is_multi_step (some sgml2) with
          | .error e => .error e
          | .ok true => .ok ([], cache3)
          | .ok false =>
              let cache4 := if env.is_multi_step then
                  SchedulerOutputState.empty
                else cache3
              .ok (env.process_model_outputs output so sgml2, cache4)

/-- C9 witness: multi-step, one group with two remaining steps, empty
scheduler output with one lookahead slot, finish_step decrementing. -/
def schedOutC9 : SchedulerOutputs :=
  { is_empty := true, num_lookahead_slots := 1, blocks_to_swap_in := [],
    blocks_to_swap_out := [], blocks_to_copy := [], running_queue_size := 1 }

def envC9 : StepEnv :=
  { is_multi_step := true, pipeline_parallel_size := 1, virtual_engine := 0,
    schedule := ([{ request_id := "r1",
                    state := { remaining_steps := 2 } }], schedOutC9),
    finished_requests_ids := [],
    execute_model := fun _ => [],
    process_model_outputs := fun _ _ _ => [],
    finish_step := fun s => { remaining_steps := s.remaining_steps - 1 } }

theorem applyOps_finished (s : AsyncStream) (h : s.finished = true) :
    ∀ ops, applyOps s ops = s := by
  intro ops
  induction ops with
  | nil => rfl
  | cons op rest ih =>
      cases op with
      | put o =>
          simp only [applyOps, List.foldl_cons, applyOp, AsyncStream.put, h,
            if_true] at ih ⊢
          exact ih
      | finish e =>
          simp only [applyOps, List.foldl_cons, applyOp, AsyncStream.finish, h,
            if_true] at ih ⊢
          exact ih

theorem applyOps_unfinished (ops : List StreamOp) :
    ∀ s : AsyncStream, s.finished = false →
    applyOps s ops =
      { request_id := s.request_id,
        queue := s.queue ++ (outputsBeforeFinish ops).map .out
                  ++ (firstTerminator ops).toList.map .exc,
        finished := (firstTerminator ops).isSome } := by
  induction ops with
  | nil =>
      intro s h
      simp [applyOps, outputsBeforeFinish, firstTerminator, ← h]
  | cons op rest ih =>
      intro s h
      cases op with
      | put o =>
          have hstep : applyOp s (.put o) =
              { request_id := s.request_id, queue := s.queue ++ [.out o],
                finished := false } := by
            simp [applyOp, AsyncStream.put, h]
          rw [show applyOps s (.put o :: rest)
                = applyOps (applyOp s (.put o)) rest from rfl,
              hstep, ih _ rfl]
          simp [outputsBeforeFinish, firstTerminator]
      | finish e =>
          have hstep : applyOp s (.finish e) =
              { request_id := s.request_id,
                queue := s.queue ++ [.exc (e.getD .stopIteration)],
                finished := true } := by
            simp [applyOp, AsyncStream.finish, h]
          rw [show applyOps s (.finish e :: rest)
                = applyOps (applyOp s (.finish e)) rest from rfl,
              hstep, applyOps_finished _ rfl]
          simp [outputsBeforeFinish, firstTerminator]

theorem consumeQueue_outs (os : List RequestOutput) (tail : List StreamItem) :
    consumeQueue (os.map .out ++ tail) =
      ((os ++ (consumeQueue tail).1 : List RequestOutput), (consumeQueue tail).2) := by
  induction os with
  | nil => simp
  | cons o rest ih => simp [consumeQueue, ih]

/-- C2.  For every AsyncStream and every producer-side sequence of put
and finish calls: the consumer observes exactly the outputs put before
the first finish, in FIFO order, followed by exactly one terminator
(the clean STOP_ITERATION sentinel when finish carried no exception,
else that exception) and nothing after it; moreover finish is
idempotent and every put after a finish is a no-op. -/
theorem asyncStream_fifo_terminator_idempotent :
    (∀ (rid : String) (ops : List StreamOp),
      (applyOps (AsyncStream.init rid) ops).queue
          = (outputsBeforeFinish ops).map .out
            ++ (firstTerminator ops).toList.map .exc
      ∧ (applyOps (AsyncStream.init rid) ops).finished
          = (firstTerminator ops).isSome
      ∧ consumeQueue (applyOps (AsyncStream.init rid) ops).queue
          = (outputsBeforeFinish ops, firstTerminator ops))
    ∧ (∀ (s : AsyncStream) (e e' : Option Exc),
        (s.finish e).finish e' = s.finish e)
    ∧ (∀ (s : AsyncStream) (e : Option Exc) (i : StreamItem),
        (s.finish e).put i = s.finish e) := by
  refine ⟨?_, ?_, ?_⟩
  · intro rid ops
    have h := applyOps_unfinished ops (AsyncStream.init rid) rfl
    rw [h]
    refine ⟨by simp [AsyncStream.init], by simp [AsyncStream.init], ?_⟩
    simp only [AsyncStream.init, List.nil_append, List.append_assoc]
    rw [List.append_assoc] at *
    rw [consumeQueue_outs]
    cases hterm : firstTerminator ops with
    | none => simp [consumeQueue]
    | some e => simp [consumeQueue]
  · intro s e e'
    unfold AsyncStream.finish
    by_cases h : s.finished <;> simp [h]
  · intro s e i
    unfold AsyncStream.finish AsyncStream.put
    by_cases h : s.finished <;> simp [h]

theorem lookupA_insertA_self (m : List (String × AsyncStream)) (rid : String)
    (v : AsyncStream) : lookupA (insertA m rid v) rid = some v := by
  induction m with
  | nil => simp [insertA, lookupA]
  | cons p rest ih =>
      obtain ⟨k, w⟩ := p
      by_cases h : k = rid <;> simp [insertA, lookupA, h, ih]

theorem lookupA_insertA_ne (m : List (String × AsyncStream)) (rid k : String)
    (v : AsyncStream) (h : k ≠ rid) :
    lookupA (insertA m rid v) k = lookupA m k := by
  induction m with
  | nil => simp [insertA, lookupA, fun hh => h hh.symm ∘ Eq.symm, h.symm]
  | cons p rest ih =>
      obtain ⟨k', w⟩ := p
      by_cases h1 : k' = rid
      · subst h1
        simp [insertA, lookupA, h.symm]
      · by_cases h2 : k' = k <;> simp [insertA, lookupA, h1, h2, h, ih]

theorem lookupA_eraseA_self (m : List (String × AsyncStream)) (rid : String) :
    lookupA (eraseA m rid) rid = none := by
  induction m with
  | nil => simp [eraseA, lookupA]
  | cons p rest ih =>
      obtain ⟨k, w⟩ := p
      by_cases h : k = rid <;>
        simp_all [eraseA, lookupA, List.filter_cons, h]

theorem lookupA_eraseA_ne (m : List (String × AsyncStream)) (rid k : String)
    (h : k ≠ rid) : lookupA (eraseA m rid) k = lookupA m k := by
  induction m with
  | nil => simp [eraseA, lookupA]
  | cons p rest ih =>
      obtain ⟨k', w⟩ := p
      by_cases h1 : k' = rid
      · subst h1
        simp_all [eraseA, List.filter_cons, lookupA, h.symm]
      · by_cases h2 : k' = k <;>
          simp_all [eraseA, List.filter_cons, lookupA, h1, h2]

theorem finish_request_id (s : AsyncStream) (e : Option Exc) :
    (s.finish e).request_id = s.request_id := by
  unfold AsyncStream.finish
  by_cases h : s.finished <;> simp [h]

theorem mem_setInsert (s : List String) (x y : String) :
    y ∈ setInsert s x ↔ y ∈ s ∨ y = x := by
  unfold setInsert
  by_cases h : x ∈ s
  · simp only [h, if_true]
    constructor
    · exact Or.inl
    · rintro (hy | rfl) <;> assumption
  · simp [h]

theorem mem_abortedSet (q : List String) (x : String) :
    x ∈ abortedSet q ↔ x ∈ q := by
  have key : ∀ (l acc : List String) (y : String),
      y ∈ l.foldl setInsert acc ↔ y ∈ acc ∨ y ∈ l := by
    intro l
    induction l with
    | nil => simp
    | cons a rest ih =>
        intro acc y
        simp only [List.foldl_cons, ih, mem_setInsert, List.mem_cons]
        tauto
  simpa [abortedSet] using (key q [] x)

theorem mem_setDiscard (s : List String) (x y : String) :
    y ∈ setDiscard s x ↔ y ∈ s ∧ y ≠ x := by
  simp [setDiscard]

/-- Membership in the aborted set surviving the new-requests drain: an
id survives iff it was in the set and did not match any pending new
stream. -/
theorem drainNew_fin_mem (pend : List (AsyncStream × NewRequest)) :
    ∀ (streams : List (String × AsyncStream)) (finished : List String)
      (r : String),
    r ∈ (drainNew streams finished pend).finished_requests ↔
      r ∈ finished ∧ r ∉ pend.map (fun p => p.1.request_id) := by
  induction pend with
  | nil => intro streams finished r; simp [drainNew]
  | cons p rest ih =>
      intro streams finished r
      obtain ⟨s, req⟩ := p
      by_cases h : s.request_id ∈ finished
      · simp only [drainNew, h, if_true, List.map_cons, List.mem_cons]
        rw [ih]
        simp only [mem_setDiscard]
        constructor
        · rintro ⟨⟨h1, h2⟩, h3⟩
          exact ⟨h1, by push_neg; exact ⟨h2, h3⟩⟩
        · rintro ⟨h1, h2⟩
          push_neg at h2
          exact ⟨⟨h1, h2.1⟩, h2.2⟩
      · simp only [drainNew, h, if_false, List.map_cons, List.mem_cons]
        rw [ih]
        constructor
        · rintro ⟨h1, h2⟩
          refine ⟨h1, ?_⟩
          push_neg
          exact ⟨fun hr => h (hr ▸ h1), h2⟩
        · rintro ⟨h1, h2⟩
          push_neg at h2
          exact ⟨h1, h2.2⟩

/-- Draining entries whose ids differ from r does not change the dict
binding for r. -/
theorem drainNew_lookup_absent (pend : List (AsyncStream × NewRequest)) :
    ∀ (streams : List (String × AsyncStream)) (finished : List String)
      (r : String),
    (∀ p ∈ pend, p.1.request_id ≠ r) →
    lookupA (drainNew streams finished pend).request_streams r
      = lookupA streams r := by
  induction pend with
  | nil => intro streams finished r _; simp [drainNew]
  | cons p rest ih =>
      intro streams finished r habs
      obtain ⟨s, req⟩ := p
      have hne : s.request_id ≠ r := habs (s, req) (by simp)
      have hrest : ∀ p ∈ rest, p.1.request_id ≠ r := by
        intro p hp; exact habs p (by simp [hp])
      by_cases h : s.request_id ∈ finished
      · simp only [drainNew, h, if_true]
        exact ih _ _ _ hrest
      · simp only [drainNew, h, if_false]
        rw [ih _ _ _ hrest, lookupA_insertA_ne _ _ _ _ (fun hh => hne hh.symm)]

/-- Every returned spec comes from a pending entry (given the handoff
well-formedness that each queued dict carries the stream id). -/
theorem drainNew_new_ids (pend : List (AsyncStream × NewRequest)) :
    ∀ (streams : List (String × AsyncStream)) (finished : List String),
    (∀ p ∈ pend, p.2.request_id = p.1.request_id) →
    ∀ q ∈ (drainNew streams finished pend).new_requests,
      q.request_id ∈ pend.map (fun p => p.1.request_id) := by
  induction pend with
  | nil => intro streams finished _ q hq; simp [drainNew] at hq
  | cons p rest ih =>
      intro streams finished hwf q hq
      obtain ⟨s, req⟩ := p
      have hwfrest : ∀ p ∈ rest, p.2.request_id = p.1.request_id := by
        intro p hp; exact hwf p (by simp [hp])
      by_cases h : s.request_id ∈ finished
      · simp only [drainNew, h, if_true] at hq
        have := ih _ _ hwfrest q hq
        simp only [List.map_cons, List.mem_cons]
        exact Or.inr this
      · simp only [drainNew, h, if_false, List.mem_cons] at hq
        rcases hq with rfl | hq
        · simp only [List.map_cons, List.mem_cons]
          exact Or.inl (hwf (s, q) (by simp))
        · have := ih _ _ hwfrest q hq
          simp only [List.map_cons, List.mem_cons]
          exact Or.inr this

/-- Every cancelled stream comes from a pending entry. -/
theorem drainNew_cancelled_ids (pend : List (AsyncStream × NewRequest)) :
    ∀ (streams : List (String × AsyncStream)) (finished : List String),
    ∀ s ∈ (drainNew streams finished pend).cancelled_streams,
      s.request_id ∈ pend.map (fun p => p.1.request_id) := by
  induction pend with
  | nil => intro streams finished s hs; simp [drainNew] at hs
  | cons p rest ih =>
      intro streams finished s hs
      obtain ⟨st, req⟩ := p
      by_cases h : st.request_id ∈ finished
      · simp only [drainNew, h, if_true, List.mem_cons] at hs
        rcases hs with rfl | hs
        · simp [finish_request_id]
        · simp only [List.map_cons, List.mem_cons]
          exact Or.inr (ih _ _ s hs)
      · simp only [drainNew, h, if_false] at hs
        simp only [List.map_cons, List.mem_cons]
        exact Or.inr (ih _ _ s hs)

/-- drainNew distributes over list append: the second half is drained
from the state the first half left behind. -/
theorem drainNew_append (a b : List (AsyncStream × NewRequest)) :
    ∀ (streams : List (String × AsyncStream)) (finished : List String),
    drainNew streams finished (a ++ b) =
      { new_requests := (drainNew streams finished a).new_requests
          ++ (drainNew (drainNew streams finished a).request_streams
                (drainNew streams finished a).finished_requests b).new_requests,
        finished_requests :=
          (drainNew (drainNew streams finished a).request_streams
            (drainNew streams finished a).finished_requests b).finished_requests,
        cancelled_streams := (drainNew streams finished a).cancelled_streams
          ++ (drainNew (drainNew streams finished a).request_streams
                (drainNew streams finished a).finished_requests b).cancelled_streams,
        request_streams :=
          (drainNew (drainNew streams finished a).request_streams
            (drainNew streams finished a).finished_requests b).request_streams } := by
  induction a with
  | nil => intro streams finished; simp [drainNew]
  | cons p rest ih =>
      intro streams finished
      obtain ⟨s, req⟩ := p
      by_cases h : s.request_id ∈ finished
      · simp only [List.cons_append, drainNew, h, if_true]
        rw [List.append_eq, ih]
      · simp only [List.cons_append, drainNew, h, if_false]
        rw [List.append_eq, ih]

/-- C1.  When a request id sits in the aborted queue and (once) in the
new-requests queue at drain time, the abort wins: the pending stream is
finished with exactly one cancellation terminator, the id is never
registered into the streams dict, its spec is not in the returned
new-request list, and the id is excluded from the returned aborted set,
so the engine is told neither to add nor to abort it. -/
theorem drain_abort_wins (tr : RequestTracker) (rid : String)
    (nr : NewRequest) (pre post : List (AsyncStream × NewRequest))
    (hsplit : tr.new_requests = pre ++ (AsyncStream.init rid, nr) :: post)
    (hpre : ∀ p ∈ pre, p.1.request_id ≠ rid)
    (hpost : ∀ p ∈ post, p.1.request_id ≠ rid)
    (habort : rid ∈ tr.aborted_requests)
    (hstreams : lookupA tr.request_streams rid = none)
    (hwf : ∀ p ∈ tr.new_requests, p.2.request_id = p.1.request_id) :
    ({ request_id := rid, queue := [.exc .cancelledError],
       finished := true } : AsyncStream)
        ∈ (tr.get_new_and_aborted_requests).cancelled_streams
    ∧ lookupA (tr.get_new_and_aborted_requests).tracker.request_streams rid
        = none
    ∧ (∀ q ∈ (tr.get_new_and_aborted_requests).new_requests,
        q.request_id ≠ rid)
    ∧ rid ∉ (tr.get_new_and_aborted_requests).finished_requests := by
  have hwfpost : ∀ p ∈ post, p.2.request_id = p.1.request_id := by
    intro p hp
    exact hwf p (by rw [hsplit]; simp [hp])
  have hwfpre : ∀ p ∈ pre, p.2.request_id = p.1.request_id := by
    intro p hp
    exact hwf p (by rw [hsplit]; simp [hp])
  have hfin0 : rid ∈ abortedSet tr.aborted_requests :=
    (mem_abortedSet _ _).2 habort
  unfold RequestTracker.get_new_and_aborted_requests
  rw [hsplit, drainNew_append]
  set fin0 := abortedSet tr.aborted_requests with hfin0def
  set d1 := drainNew tr.request_streams fin0 pre with hd1
  have hpreids : rid ∉ pre.map (fun p => p.1.request_id) := by
    simp only [List.mem_map, not_exists]
    rintro p ⟨hp, hpid⟩
    exact hpre p hp hpid
  have hfin1 : rid ∈ d1.finished_requests :=
    (drainNew_fin_mem pre _ _ _).2 ⟨hfin0, hpreids⟩
  have hlook1 : lookupA d1.request_streams rid = none := by
    rw [drainNew_lookup_absent pre _ _ _ hpre, hstreams]
  have hid : (AsyncStream.init rid).request_id = rid := rfl
  simp only [drainNew, hid, hfin1, if_true]
  set fin2 := setDiscard d1.finished_requests rid with hfin2
  set d2 := drainNew d1.request_streams fin2 post with hd2
  have hfinstream : (AsyncStream.init rid).finish (some .cancelledError)
      = { request_id := rid, queue := [.exc .cancelledError],
          finished := true } := rfl
  refine ⟨?_, ?_, ?_, ?_⟩
  · simp [hfinstream]
  · have := drainNew_lookup_absent post d1.request_streams fin2 rid hpost
    simp only [hd2] at *
    rw [this, hlook1]
  · intro q hq
    simp only [List.mem_append] at hq
    rcases hq with hq | hq
    · have := drainNew_new_ids pre _ _ hwfpre q hq
      intro hcontra
      rw [hcontra] at this
      exact hpreids this
    · have := drainNew_new_ids post _ _ hwfpost q hq
      intro hcontra
      rw [hcontra] at this
      simp only [List.mem_map] at this
      obtain ⟨p, hp, hpid⟩ := this
      exact hpost p hp hpid
  · intro hcontra
    have := (drainNew_fin_mem post _ _ _).1 hcontra
    rw [mem_setDiscard] at this
    exact this.1.2 rfl

theorem drain_abort_wins_witness :
    ({ request_id := "r1", queue := [.exc .cancelledError],
       finished := true } : AsyncStream)
        ∈ (trackerC1.get_new_and_aborted_requests).cancelled_streams
    ∧ lookupA (trackerC1.get_new_and_aborted_requests).tracker.request_streams
        "r1" = none
    ∧ (∀ q ∈ (trackerC1.get_new_and_aborted_requests).new_requests,
        q.request_id ≠ "r1")
    ∧ "r1" ∉ (trackerC1.get_new_and_aborted_requests).finished_requests :=
  drain_abort_wins trackerC1 "r1"
    { request_id := "r1", lora_request := none, payload := 0 } [] []
    rfl (by simp) (by simp) (by decide) rfl (by decide)

/-- C3 counterexample.  Aborting an id the tracker has never seen is
not dropped: the id still lands in the aborted set returned by the next
drain, although it was never registered in the streams dict, so the
engine IS told to abort an id it never received. -/
theorem abort_unknown_reported_counterexample :
    lookupA RequestTracker.mkInit.request_streams "ghost" = none
    ∧ "ghost" ∈ (((RequestTracker.mkInit.abort_request "ghost" none).1
        ).get_new_and_aborted_requests).finished_requests := by
  constructor
  · rfl
  · decide

/-- C3 amended.  abort_request on an id absent from the streams dict
leaves the dict unchanged and finishes no stream, but still enqueues
the id into the aborted queue; the aborted set returned by drain
contains exactly the drained aborted ids that matched no pending new
request — including ids that were never registered in streams, which
are therefore reported to the engine. -/
theorem abort_unknown_enqueued_and_drain_set (tr : RequestTracker)
    (rid : String) (e : Option Exc)
    (h : lookupA tr.request_streams rid = none) :
    (tr.abort_request rid e).1.request_streams = tr.request_streams
    ∧ (tr.abort_request rid e).2 = none
    ∧ (tr.abort_request rid e).1.aborted_requests
        = tr.aborted_requests ++ [rid]
    ∧ ∀ (tr2 : RequestTracker) (r : String),
        r ∈ (tr2.get_new_and_aborted_requests).finished_requests ↔
          (r ∈ tr2.aborted_requests
           ∧ r ∉ tr2.new_requests.map (fun p => p.1.request_id)) := by
  refine ⟨?_, ?_, ?_, ?_⟩
  · simp [RequestTracker.abort_request, h]
  · simp [RequestTracker.abort_request, h]
  · simp [RequestTracker.abort_request, h]
  · intro tr2 r
    unfold RequestTracker.get_new_and_aborted_requests
    simp only
    rw [drainNew_fin_mem, mem_abortedSet]

theorem abort_unknown_enqueued_and_drain_set_witness :
    (RequestTracker.mkInit.abort_request "ghost" none).1.request_streams
        = RequestTracker.mkInit.request_streams
    ∧ (RequestTracker.mkInit.abort_request "ghost" none).2 = none
    ∧ (RequestTracker.mkInit.abort_request "ghost" none).1.aborted_requests
        = RequestTracker.mkInit.aborted_requests ++ ["ghost"]
    ∧ ∀ (tr2 : RequestTracker) (r : String),
        r ∈ (tr2.get_new_and_aborted_requests).finished_requests ↔
          (r ∈ tr2.aborted_requests
           ∧ r ∉ tr2.new_requests.map (fun p => p.1.request_id)) :=
  abort_unknown_enqueued_and_drain_set RequestTracker.mkInit "ghost" none rfl

/-- C10.  add_request raises the duplicate KeyError exactly when the id
is currently registered in the streams dict; a resubmission while the
first submission is still pending in new_requests is accepted and
creates a second stream, and at the next drain the later entry
overwrites the earlier one in the streams dict while the earlier stream
is never finished (no cancellation is produced and both specs are
handed to the engine). -/
theorem add_request_duplicate_only_in_streams :
    (∀ (tr : RequestTracker) (req : NewRequest),
      (∃ e, tr.add_request req = .error e) ↔
        (lookupA tr.request_streams req.request_id).isSome = true)
    ∧ (∀ (tr : RequestTracker) (rid : String) (n1 n2 : NewRequest),
        lookupA tr.request_streams rid = none →
        n1.request_id = rid → n2.request_id = rid →
        ∃ tr2, tr.add_request n1
            = .ok ({ tr with
                new_requests :=
                  tr.new_requests ++ [(AsyncStream.init rid, n1)],
                new_requests_event := true }, AsyncStream.init rid)
          ∧ ({ tr with
                new_requests :=
                  tr.new_requests ++ [(AsyncStream.init rid, n1)],
                new_requests_event := true } :
              RequestTracker).add_request n2
            = .ok (tr2, AsyncStream.init rid)
          ∧ tr2.new_requests = tr.new_requests
              ++ [(AsyncStream.init rid, n1), (AsyncStream.init rid, n2)])
    ∧ (∀ (streams : List (String × AsyncStream)) (finished : List String)
        (s1 s2 : AsyncStream) (n1 n2 : NewRequest) (rid : String),
        s1.request_id = rid → s2.request_id = rid → rid ∉ finished →
        drainNew streams finished [(s1, n1), (s2, n2)]
          = { new_requests := [n1, n2], finished_requests := finished,
              cancelled_streams := [],
              request_streams := insertA (insertA streams rid s1) rid s2 }
        ∧ lookupA (insertA (insertA streams rid s1) rid s2) rid = some s2) := by
  refine ⟨?_, ?_, ?_⟩
  · intro tr req
    unfold RequestTracker.add_request
    by_cases h : (lookupA tr.request_streams req.request_id).isSome
    · simp only [h, if_true]
      constructor
      · intro _
        trivial
      · intro _
        exact ⟨_, rfl⟩
    · simp only [h, if_false]
      simp only [Bool.false_eq_true, iff_false, not_exists]
      intro e hcontra
      cases hcontra
  · intro tr rid n1 n2 hnone h1 h2
    have hadd1 : tr.add_request n1
        = .ok ({ tr with
            new_requests := tr.new_requests ++ [(AsyncStream.init rid, n1)],
            new_requests_event := true }, AsyncStream.init rid) := by
      unfold RequestTracker.add_request
      rw [h1, hnone]
      simp
    refine ⟨{ tr with
        new_requests := (tr.new_requests ++ [(AsyncStream.init rid, n1)])
          ++ [(AsyncStream.init rid, n2)],
        new_requests_event := true }, hadd1, ?_, ?_⟩
    · unfold RequestTracker.add_request
      rw [h2]
      simp only [hnone, Option.isSome_none, Bool.false_eq_true, if_false]
    · simp
  · intro streams finished s1 s2 n1 n2 rid h1 h2 hfin
    subst h1
    constructor
    · have h2fin : s2.request_id ∉ finished := by rw [h2]; exact hfin
      simp only [drainNew, hfin, if_false, h2fin, h2]
    · rw [← h2]
      exact lookupA_insertA_self _ _ _

theorem add_request_duplicate_only_in_streams_witness :
    ∃ tr2, RequestTracker.mkInit.add_request
        { request_id := "r1", lora_request := none, payload := 1 }
        = .ok ({ RequestTracker.mkInit with
            new_requests := RequestTracker.mkInit.new_requests
              ++ [(AsyncStream.init "r1",
                   { request_id := "r1", lora_request := none,
                     payload := 1 })],
            new_requests_event := true }, AsyncStream.init "r1")
      ∧ ({ RequestTracker.mkInit with
            new_requests := RequestTracker.mkInit.new_requests
              ++ [(AsyncStream.init "r1",
                   { request_id := "r1", lora_request := none,
                     payload := 1 })],
            new_requests_event := true } :
          RequestTracker).add_request
          { request_id := "r1", lora_request := none, payload := 2 }
        = .ok (tr2, AsyncStream.init "r1")
      ∧ tr2.new_requests = RequestTracker.mkInit.new_requests
          ++ [(AsyncStream.init "r1",
               { request_id := "r1", lora_request := none, payload := 1 }),
              (AsyncStream.init "r1",
               { request_id := "r1", lora_request := none, payload := 2 })] :=
  add_request_duplicate_only_in_streams.2.1 RequestTracker.mkInit "r1"
    { request_id := "r1", lora_request := none, payload := 1 }
    { request_id := "r1", lora_request := none, payload := 2 }
    rfl rfl rfl

theorem processNewRequests_all_ok (eng : Engine)
    (reqs : List NewRequest)
    (hok : ∀ r ∈ reqs, eng.add_request_async r = .ok ()) :
    ∀ tr, processNewRequests eng tr reqs = .ok (tr, []) := by
  induction reqs with
  | nil => intro tr; rfl
  | cons r rest ih =>
      intro tr
      have hr : eng.add_request_async r = .ok () := hok r (by simp)
      have hrest : ∀ r ∈ rest, eng.add_request_async r = .ok () := by
        intro q hq; exact hok q (by simp [hq])
      simp only [processNewRequests, hr]
      exact ih hrest tr

theorem processNewRequests_skip (eng : Engine) (tail : List NewRequest) :
    ∀ pre : List NewRequest,
    (∀ r ∈ pre, eng.add_request_async r = .ok ()) →
    ∀ tr, processNewRequests eng tr (pre ++ tail)
      = processNewRequests eng tr tail := by
  intro pre
  induction pre with
  | nil => intro _ tr; rfl
  | cons r rest ih =>
      intro hok tr
      have hr : eng.add_request_async r = .ok () := hok r (by simp)
      simp only [List.cons_append, processNewRequests, hr]
      exact ih (fun q hq => hok q (by simp [hq])) tr

/-- C4.  If the engine add_request raises ValueError for exactly one
drained spec s, then s's stream is finished with exactly that error and
removed from the streams dict, every other binding of the dict is
unchanged, and the loop continues: processNewRequests returns normally
instead of propagating the exception. -/
theorem engine_step_validation_error_routed (eng : Engine)
    (tr : RequestTracker) (s : NewRequest) (m : String)
    (stream0 : AsyncStream)
    (pre post : List NewRequest)
    (hpre : ∀ r ∈ pre, eng.add_request_async r = .ok ())
    (hpost : ∀ r ∈ post, eng.add_request_async r = .ok ())
    (hfail : eng.add_request_async s = .error (.valueError m))
    (hstream : lookupA tr.request_streams s.request_id = some stream0) :
    processNewRequests eng tr (pre ++ s :: post)
      = .ok ({ tr with
          aborted_requests := tr.aborted_requests ++ [s.request_id],
          request_streams := eraseA tr.request_streams s.request_id },
        [(s.request_id, stream0.finish (some (.valueError m)))])
    ∧ lookupA (eraseA tr.request_streams s.request_id) s.request_id = none
    ∧ ∀ rid, rid ≠ s.request_id →
        lookupA (eraseA tr.request_streams s.request_id) rid
          = lookupA tr.request_streams rid := by
  refine ⟨?_, lookupA_eraseA_self _ _, fun rid h => lookupA_eraseA_ne _ _ _ h⟩
  rw [processNewRequests_skip eng (s :: post) pre hpre tr]
  simp only [processNewRequests, hfail]
  simp only [RequestTracker.process_exception, RequestTracker.abort_request,
    hstream]
  rw [processNewRequests_all_ok eng post hpost]
  simp

theorem engine_step_validation_error_routed_witness :
    processNewRequests engineC4 trackerC4 ([reqGoodC4] ++ reqBadC4 :: [])
      = .ok ({ trackerC4 with
          aborted_requests := trackerC4.aborted_requests
            ++ [reqBadC4.request_id],
          request_streams :=
            eraseA trackerC4.request_streams reqBadC4.request_id },
        [(reqBadC4.request_id,
          (AsyncStream.init "s").finish (some (.valueError "bad")))])
    ∧ lookupA (eraseA trackerC4.request_streams reqBadC4.request_id)
        reqBadC4.request_id = none
    ∧ ∀ rid, rid ≠ reqBadC4.request_id →
        lookupA (eraseA trackerC4.request_streams reqBadC4.request_id) rid
          = lookupA trackerC4.request_streams rid :=
  engine_step_validation_error_routed engineC4 trackerC4 reqBadC4 "bad"
    (AsyncStream.init "s") [reqGoodC4] []
    (by decide) (by decide) (by decide) (by decide)

/-- C7 counterexample.  A gracefully shut down supervisor with the
default start_engine_loop=True and no latched error does NOT reject the
next submit: add_request restarts the loop and accepts the request,
contradicting the claim that every submit after shutdown fails with
the engine-dead error. -/
theorem shutdown_then_submit_counterexample :
    supervisorC7.shutdown_background_loop.is_running = false
    ∧ supervisorC7.shutdown_background_loop.add_request
        { request_id := "r1", lora_request := none, payload := 0 }
      = .ok ({ supervisorC7 with
          request_tracker :=
            { request_streams := [], aborted_requests := [],
              new_requests := [(AsyncStream.init "r1",
                { request_id := "r1", lora_request := none, payload := 0 })],
              new_requests_event := true },
          bg_task := some false, background_loop := true },
        AsyncStream.init "r1") := by
  constructor
  · decide
  · decide

/-- C7 amended.  After shutdown_background_loop, is_running is false;
a subsequent add_request fails with the engine-dead error exactly when
auto-start is off (not-running message) or an error is latched
(errored message); with auto-start on and no latched error the
background loop is restarted with a fresh tracker and the request is
accepted. -/
theorem shutdown_then_submit (st : AsyncAphrodite) (req : NewRequest) :
    st.shutdown_background_loop.is_running = false
    ∧ (st.start_engine_loop = false →
        st.shutdown_background_loop.add_request req
          = .error (.engineDead "Background loop is not running."))
    ∧ (∀ e, st.start_engine_loop = true → st.errored_with = some e →
        st.shutdown_background_loop.add_request req
          = .error (.engineDead "Background loop has errored already."))
    ∧ (st.start_engine_loop = true → st.errored_with = none →
        ∃ st', st.shutdown_background_loop.add_request req
            = .ok (st', AsyncStream.init req.request_id)
          ∧ st'.is_running = true) := by
  refine ⟨?_, ?_, ?_, ?_⟩
  · simp [AsyncAphrodite.shutdown_background_loop, AsyncAphrodite.is_running]
  · intro hsel
    simp [AsyncAphrodite.add_request, AsyncAphrodite.shutdown_background_loop,
      AsyncAphrodite.is_running, hsel]
  · intro e hsel he
    simp [AsyncAphrodite.add_request, AsyncAphrodite.shutdown_background_loop,
      AsyncAphrodite.is_running, AsyncAphrodite.start_background_loop,
      AsyncAphrodite.errored, hsel, he]
  · intro hsel herrnone
    refine ⟨{ st with
        request_tracker :=
          { request_streams := [], aborted_requests := [],
            new_requests := [(AsyncStream.init req.request_id, req)],
            new_requests_event := true },
        bg_task := some false, background_loop := true }, ?_, ?_⟩
    · simp [AsyncAphrodite.add_request, AsyncAphrodite.shutdown_background_loop,
        AsyncAphrodite.is_running, AsyncAphrodite.start_background_loop,
        AsyncAphrodite.errored, hsel, herrnone,
        RequestTracker.add_request, RequestTracker.mkInit, lookupA]
    · simp [AsyncAphrodite.is_running]

theorem shutdown_then_submit_witness :
    ∃ st', supervisorC7b.shutdown_background_loop.add_request
        { request_id := "w", lora_request := none, payload := 0 }
      = .ok (st', AsyncStream.init "w")
    ∧ st'.is_running = true :=
  (shutdown_then_submit supervisorC7b
    { request_id := "w", lora_request := none, payload := 0 }).2.2.2
    rfl rfl

theorem lookupA_eq_none_iff (m : List (String × AsyncStream)) (k : String) :
    lookupA m k = none ↔ ∀ p ∈ m, p.1 ≠ k := by
  induction m with
  | nil => simp [lookupA]
  | cons p rest ih =>
      obtain ⟨k', v⟩ := p
      by_cases h : k' = k <;> simp [lookupA, h, ih]

theorem propagateGo_streams_empty (e : Exc) :
    ∀ (ks : List String) (tr : RequestTracker),
    (∀ p ∈ tr.request_streams, p.1 ∈ ks) →
    (propagateGo e tr ks).1.request_streams = [] := by
  intro ks
  induction ks with
  | nil =>
      intro tr hcov
      have hstr : tr.request_streams = [] := by
        cases hs : tr.request_streams with
        | nil => rfl
        | cons p rest =>
            exfalso
            have := hcov p (by rw [hs]; simp)
            simp at this
      simp [propagateGo, hstr]
  | cons k rest ih =>
      intro tr hcov
      simp only [propagateGo, RequestTracker.abort_request]
      cases hlook : lookupA tr.request_streams k with
      | none =>
          simp only [hlook]
          exact ih { tr with
              aborted_requests := tr.aborted_requests ++ [k] }
            (fun p hp => by
              have hk := hcov p hp
              have hne : p.1 ≠ k := (lookupA_eq_none_iff _ _).1 hlook p hp
              simp only [List.mem_cons] at hk
              exact hk.resolve_left hne)
      | some s =>
          simp only [hlook]
          exact ih { tr with
              aborted_requests := tr.aborted_requests ++ [k],
              request_streams := eraseA tr.request_streams k }
            (fun p hp => by
              simp only [eraseA, List.mem_filter] at hp
              have hk := hcov p hp.1
              have hne : p.1 ≠ k := by simpa using hp.2
              simp only [List.mem_cons] at hk
              exact hk.resolve_left hne)

theorem propagateGo_logs_mem (e : Exc) :
    ∀ (ks : List String) (tr : RequestTracker) (rid : String)
      (s : AsyncStream),
    rid ∈ ks → lookupA tr.request_streams rid = some s →
    (rid, s.finish (some e)) ∈ (propagateGo e tr ks).2 := by
  intro ks
  induction ks with
  | nil => intro tr rid s h; simp at h
  | cons k rest ih =>
      intro tr rid s hmem hlook
      simp only [propagateGo, RequestTracker.abort_request]
      by_cases hk : rid = k
      · subst hk
        simp only [hlook]
        simp
      · have hmem' : rid ∈ rest := by
          simp only [List.mem_cons] at hmem
          exact hmem.resolve_left hk
        cases hlk : lookupA tr.request_streams k with
        | none =>
            simp only [hlk]
            have := ih { tr with
                aborted_requests := tr.aborted_requests ++ [k] }
              rid s hmem' hlook
            simpa using this
        | some w =>
            simp only [hlk]
            have hlook2 : lookupA (eraseA tr.request_streams k) rid
                = some s := by
              rw [lookupA_eraseA_ne _ _ _ hk]
              exact hlook
            have := ih { tr with
                aborted_requests := tr.aborted_requests ++ [k],
                request_streams := eraseA tr.request_streams k }
              rid s hmem' hlook2
            simp only [List.mem_append, List.mem_singleton]
            right
            exact this

/-- C5.  When the engine-loop watchdog (default
ENGINE_ITERATION_TIMEOUT_S = 60 seconds) fires: the errored flag is
latched with the timeout error, the loop task ends (the supervisor is
no longer running), the streams dict is emptied, and every stream that
was live at that moment is finished with the timeout error. -/
theorem iteration_timeout_latches_and_propagates (st : AsyncAphrodite) :
    (st.on_iteration_timeout).1.errored = true
    ∧ (st.on_iteration_timeout).1.errored_with = some .timeoutError
    ∧ (st.on_iteration_timeout).1.is_running = false
    ∧ (st.on_iteration_timeout).1.request_tracker.request_streams = []
    ∧ (∀ rid s,
        lookupA st.request_tracker.request_streams rid = some s →
        (rid, s.finish (some .timeoutError)) ∈ (st.on_iteration_timeout).2)
    ∧ engineIterationTimeoutDefaultS = 60 := by
  refine ⟨?_, ?_, ?_, ?_, ?_, rfl⟩
  · simp [AsyncAphrodite.on_iteration_timeout, AsyncAphrodite.set_errored,
      AsyncAphrodite.errored]
  · simp [AsyncAphrodite.on_iteration_timeout, AsyncAphrodite.set_errored]
  · simp only [AsyncAphrodite.on_iteration_timeout,
      AsyncAphrodite.set_errored, AsyncAphrodite.is_running]
    cases st.bg_task <;> simp
  · simp only [AsyncAphrodite.on_iteration_timeout,
      AsyncAphrodite.set_errored, RequestTracker.propagate_exception]
    apply propagateGo_streams_empty
    intro p hp
    simp only [List.mem_map]
    exact ⟨p, hp, rfl⟩
  · intro rid s hlook
    simp only [AsyncAphrodite.on_iteration_timeout,
      AsyncAphrodite.set_errored, RequestTracker.propagate_exception]
    apply propagateGo_logs_mem
    · have : rid ∈ st.request_tracker.request_streams.map
          (fun p => p.1) := by
        by_contra hcon
        have : lookupA st.request_tracker.request_streams rid = none := by
          rw [lookupA_eq_none_iff]
          intro p hp hcontra
          exact hcon (by simp only [List.mem_map]; exact ⟨p, hp, hcontra⟩)
        rw [this] at hlook
        cases hlook
      exact this
    · exact hlook

theorem iteration_timeout_latches_and_propagates_witness :
    (supervisorC5.on_iteration_timeout).1.errored = true
    ∧ (supervisorC5.on_iteration_timeout).1.request_tracker.request_streams
        = []
    ∧ ("r1", (AsyncStream.init "r1").finish (some .timeoutError))
        ∈ (supervisorC5.on_iteration_timeout).2 :=
  ⟨(iteration_timeout_latches_and_propagates supervisorC5).1,
   (iteration_timeout_latches_and_propagates supervisorC5).2.2.2.1,
   (iteration_timeout_latches_and_propagates supervisorC5).2.2.2.2.1
     "r1" (AsyncStream.init "r1") rfl⟩

/-- C6 counterexample.  A submit that supplies a LoRA adapter while the
engine is not configured for LoRA is NOT rejected synchronously: the
engine-side add_request_async would raise the ValueError, yet the
supervisor add_request accepts the request and returns a stream without
consulting the engine. -/
theorem lora_disabled_submit_accepted_counterexample :
    engineC6.lora_config = false
    ∧ reqLoraC6.lora_request.isSome = true
    ∧ engineC6.add_request_async reqLoraC6
        = .error (.valueError "Got lora_request but LoRA is not enabled!")
    ∧ supervisorC6.add_request reqLoraC6
        = .ok ({ supervisorC6 with
            request_tracker :=
              { request_streams := [], aborted_requests := [],
                new_requests := [(AsyncStream.init "r1", reqLoraC6)],
                new_requests_event := true } },
          AsyncStream.init "r1") := by
  refine ⟨rfl, rfl, ?_, ?_⟩
  · decide
  · decide

/-- C6 amended.  With an adapter handle supplied and LoRA disabled, the
submit itself succeeds (add_request returns a stream with no error);
the AdapterDisabled ValueError is raised later, inside engine_step's
handoff, where it is caught and delivered as the error terminator on
that request's stream, which is then dropped from the dict. -/
theorem lora_disabled_routed_to_stream (eng : Engine)
    (st : AsyncAphrodite) (req : NewRequest)
    (hlora : req.lora_request.isSome = true)
    (hcfg : eng.lora_config = false)
    (hrun : st.is_running = true)
    (hnew : st.request_tracker.new_requests = [])
    (habort : st.request_tracker.aborted_requests = [])
    (hnostream : lookupA st.request_tracker.request_streams req.request_id
      = none) :
    ∃ st1, st.add_request req = .ok (st1, AsyncStream.init req.request_id)
    ∧ ∃ tr2, processNewRequests eng
          (st1.request_tracker.get_new_and_aborted_requests).tracker
          (st1.request_tracker.get_new_and_aborted_requests).new_requests
        = .ok (tr2, [(req.request_id,
            { request_id := req.request_id,
              queue := [.exc (.valueError
                "Got lora_request but LoRA is not enabled!")],
              finished := true })])
      ∧ lookupA tr2.request_streams req.request_id = none := by
  have htr : st.request_tracker.add_request req
      = .ok ({ st.request_tracker with
          new_requests := st.request_tracker.new_requests
            ++ [(AsyncStream.init req.request_id, req)],
          new_requests_event := true }, AsyncStream.init req.request_id) := by
    unfold RequestTracker.add_request
    rw [hnostream]
    simp
  refine ⟨{ st with request_tracker :=
      { st.request_tracker with
        new_requests := st.request_tracker.new_requests
          ++ [(AsyncStream.init req.request_id, req)],
        new_requests_event := true } }, ?_, ?_⟩
  · unfold AsyncAphrodite.add_request
    rw [hrun]
    simp only [if_true]
    rw [htr]
  · have hdrain :
        ({ st.request_tracker with
           new_requests := st.request_tracker.new_requests
             ++ [(AsyncStream.init req.request_id, req)],
           new_requests_event := true } :
          RequestTracker).get_new_and_aborted_requests
        = { new_requests := [req], finished_requests := [],
            cancelled_streams := [],
            tracker := { st.request_tracker with
              request_streams := insertA st.request_tracker.request_streams
                req.request_id (AsyncStream.init req.request_id),
              aborted_requests := [], new_requests := [],
              new_requests_event := true } } := by
      unfold RequestTracker.get_new_and_aborted_requests
      rw [hnew, habort]
      simp only [List.nil_append]
      have hset : abortedSet [] = [] := rfl
      rw [hset]
      simp only [drainNew, List.not_mem_nil, if_false]
      rfl
    rw [hdrain]
    simp only
    have hfail : eng.add_request_async req
        = .error (.valueError "Got lora_request but LoRA is not enabled!") := by
      unfold Engine.add_request_async
      simp [hlora, hcfg]
    simp only [processNewRequests, hfail, RequestTracker.process_exception,
      RequestTracker.abort_request]
    rw [show lookupA (insertA st.request_tracker.request_streams
        req.request_id (AsyncStream.init req.request_id)) req.request_id
        = some (AsyncStream.init req.request_id) from
      lookupA_insertA_self _ _ _]
    refine ⟨_, rfl, ?_⟩
    exact lookupA_eraseA_self _ _

theorem lora_disabled_routed_to_stream_witness :
    ∃ st1, supervisorC6b.add_request reqLoraC6
      = .ok (st1, AsyncStream.init reqLoraC6.request_id)
    ∧ ∃ tr2, processNewRequests engineC6
          (st1.request_tracker.get_new_and_aborted_requests).tracker
          (st1.request_tracker.get_new_and_aborted_requests).new_requests
        = .ok (tr2, [(reqLoraC6.request_id,
            { request_id := reqLoraC6.request_id,
              queue := [.exc (.valueError
                "Got lora_request but LoRA is not enabled!")],
              finished := true })])
      ∧ lookupA tr2.request_streams reqLoraC6.request_id = none :=
  lora_disabled_routed_to_stream engineC6 supervisorC6b reqLoraC6
    rfl rfl rfl rfl rfl rfl

/-- C8.  _has_remaining_steps raises (an AssertionError, and errors are
only ever that) exactly when multi-step is on, the metadata list is
non-empty and some group's remaining_steps differs from the first
group's; in every other case it returns normally, yielding true iff
multi-step is on, the list is non-empty and the shared remaining_steps
value is positive. -/
theorem has_remaining_steps_invariant (ms : Bool)
    (l : Option (List SequenceGroupMetadata)) :
    ((∃ m, _has_remaining_steps ms l = .error (.assertionError m)) ↔
      (ms = true ∧ ∃ g0 gs, l = some (g0 :: gs)
        ∧ ∃ g ∈ gs, g.state.remaining_steps ≠ g0.state.remaining_steps))
    ∧ (∀ e, _has_remaining_steps ms l = .error e →
        ∃ m, e = .assertionError m)
    ∧ (_has_remaining_steps ms l = .ok true ↔
      (ms = true ∧ ∃ g0 gs, l = some (g0 :: gs)
        ∧ (∀ g ∈ gs, g.state.remaining_steps = g0.state.remaining_steps)
        ∧ 0 < g0.state.remaining_steps)) := by
  match l with
  | none =>
      refine ⟨?_, ?_, ?_⟩
      · simp [_has_remaining_steps]
      · intro e he
        simp [_has_remaining_steps] at he
      · simp [_has_remaining_steps]
  | some [] =>
      refine ⟨?_, ?_, ?_⟩
      · simp [_has_remaining_steps]
      · intro e he
        simp [_has_remaining_steps] at he
      · simp [_has_remaining_steps]
  | some (g0 :: gs) =>
      by_cases hms : ms = true
      · subst hms
        by_cases hany : gs.any
            (fun g => g.state.remaining_steps ≠ g0.state.remaining_steps)
            = true
        · have hres : _has_remaining_steps true (some (g0 :: gs))
              = .error (.assertionError
                "All running sequence groups should have the same remaining steps.") := by
            simp only [_has_remaining_steps]
            rw [if_neg (by simp), if_pos hany]
          refine ⟨?_, ?_, ?_⟩
          · rw [hres]
            simp only [List.any_eq_true, decide_eq_true_eq] at hany
            obtain ⟨g, hg, hne⟩ := hany
            constructor
            · intro _
              exact ⟨rfl, g0, gs, rfl, g, hg, hne⟩
            · intro _
              exact ⟨_, rfl⟩
          · intro e he
            rw [hres] at he
            cases he
            exact ⟨_, rfl⟩
          · rw [hres]
            simp only [List.any_eq_true, decide_eq_true_eq] at hany
            obtain ⟨g, hg, hne⟩ := hany
            constructor
            · intro hcontra
              cases hcontra
            · rintro ⟨-, g0', gs', heq, hall, hpos⟩
              injection heq with heq2
              injection heq2 with h1 h2
              subst h1
              subst h2
              exact absurd (hall g hg) hne
        · have hres : _has_remaining_steps true (some (g0 :: gs))
              = .ok (decide (0 < g0.state.remaining_steps)) := by
            simp only [_has_remaining_steps]
            rw [if_neg (by simp), if_neg hany]
          have hall : ∀ g ∈ gs,
              g.state.remaining_steps = g0.state.remaining_steps := by
            intro g hg
            by_contra hne
            apply hany
            simp only [List.any_eq_true, decide_eq_true_eq]
            exact ⟨g, hg, hne⟩
          refine ⟨?_, ?_, ?_⟩
          · rw [hres]
            constructor
            · rintro ⟨m, hm⟩
              cases hm
            · rintro ⟨-, g0', gs', heq, g, hg, hne⟩
              injection heq with heq2
              injection heq2 with h1 h2
              subst h1
              subst h2
              exact absurd (hall g hg) hne
          · intro e he
            rw [hres] at he
            cases he
          · rw [hres]
            constructor
            · intro hok
              injection hok with hb
              refine ⟨rfl, g0, gs, rfl, hall, ?_⟩
              exact of_decide_eq_true hb
            · rintro ⟨-, g0', gs', heq, -, hpos⟩
              injection heq with heq2
              injection heq2 with h1 h2
              subst h1
              subst h2
              simp [hpos]
      · have hmsf : ms = false := by
          cases ms
          · rfl
          · exact absurd rfl hms
        subst hmsf
        refine ⟨?_, ?_, ?_⟩
        · simp [_has_remaining_steps]
        · intro e he
          simp [_has_remaining_steps] at he
        · simp [_has_remaining_steps]

theorem has_remaining_steps_invariant_witness :
    (∃ m, _has_remaining_steps true
        (some [{ request_id := "a", state := { remaining_steps := 2 } },
               { request_id := "b", state := { remaining_steps := 1 } }])
      = .error (.assertionError m))
    ∧ _has_remaining_steps true
        (some [{ request_id := "a", state := { remaining_steps := 2 } }])
      = .ok true :=
  ⟨(has_remaining_steps_invariant true
      (some [{ request_id := "a", state := { remaining_steps := 2 } },
             { request_id := "b", state := { remaining_steps := 1 } }])).1.mpr
    ⟨rfl, { request_id := "a", state := { remaining_steps := 2 } },
      [{ request_id := "b", state := { remaining_steps := 1 } }], rfl,
      { request_id := "b", state := { remaining_steps := 1 } },
      by simp, by decide⟩,
   (has_remaining_steps_invariant true
      (some [{ request_id := "a", state := { remaining_steps := 2 } }])).2.2.mpr
    ⟨rfl, { request_id := "a", state := { remaining_steps := 2 } }, [], rfl,
      by simp, by decide⟩⟩

/-- C9.  Under multi-step, after the per-group step completion: if the
groups still have remaining iterations, step_async returns the empty
output list and keeps the (possibly refreshed) cache instead of
clearing it; if no iterations remain, the cache is reset to the empty
state and the processed per-request outputs are returned. -/
theorem step_async_multi_step_materialization (env : StepEnv)
    (cache : SchedulerOutputState) (sgml : List SequenceGroupMetadata)
    (so : SchedulerOutputs) (cache1 : SchedulerOutputState)
    (aliased : Bool) (output : List (Option SamplerOutput))
    (cache2 : SchedulerOutputState)
    (hms : env.is_multi_step = true)
    (hsched : stepSchedulePhase env cache = .ok (sgml, so, cache1, aliased))
    (hexec : stepExecutePhase env sgml so cache1 = .ok (output, cache2)) :
    (_has_remaining_steps env.is_multi_step
        (some (stepFinishList env sgml)) = .ok true →
      step_async env cache = .ok ([],
        if aliased then
          { cache2 with
            seq_group_metadata_list := some (stepFinishList env sgml) }
        else cache2))
    ∧ (_has_remaining_steps env.is_multi_step
        (some (stepFinishList env sgml)) = .ok false →
      step_async env cache = .ok
        (env.process_model_outputs output so (stepFinishList env sgml),
         SchedulerOutputState.empty)) := by
  constructor
  · intro hrem
    simp only [step_async, hsched, hexec, hrem]
  · intro hrem
    rw [hms] at hrem
    simp only [step_async, hsched, hexec, hms, hrem, if_true]

theorem step_async_multi_step_materialization_witness :
    step_async envC9 SchedulerOutputState.empty
      = .ok ([],
        { last_output := none,
          seq_group_metadata_list :=
            some [{ request_id := "r1", state := { remaining_steps := 1 } }],
          scheduler_outputs := some schedOutC9 }) :=
  (step_async_multi_step_materialization envC9 SchedulerOutputState.empty
    [{ request_id := "r1", state := { remaining_steps := 2 } }] schedOutC9
    { last_output := none,
      seq_group_metadata_list :=
        some [{ request_id := "r1", state := { remaining_steps := 2 } }],
      scheduler_outputs := some schedOutC9 } true []
    { last_output := none,
      seq_group_metadata_list :=
        some [{ request_id := "r1", state := { remaining_steps := 2 } }],
      scheduler_outputs := some schedOutC9 }
    rfl (by decide) (by decide)).1 (by decide)

end Aphrodite
